import Mathlib

/-!
Verification of the segmented memory patcher (`memory_patcher.py`).

The embedding mirrors the Python source:

* Python exceptions become the `PyErr` inductive.  The spec's error
  taxonomy maps onto it as: `InvalidAddress` ↦ `invalidAddress`
  (`InvalidAddressException`), `NotWritable` ↦ `writeException`
  (`WriteException`), and both `OutOfRange` and `CapacityExceeded` surface
  in the code as Python `IndexError` ↦ `indexError`; `struct.error`
  ↦ `structError`.
* Methods that may raise and mutate `self.data` become functions into
  `PyResult`, which carries the post-state both on success and on failure
  (Python exceptions do not roll back already-performed assignments, so
  the error case must carry a state too; in this code every raise happens
  before the single `self.data = ...` assignment, which the proofs below
  make explicit).
* Python byte strings become `List Nat`; Python slice semantics
  (negative indices count from the end, out-of-range indices clamp) are
  reproduced by `pySlice`/`pySliceTo`/`pySliceFrom`.
* `struct.Struct` is the opaque external codec: a packed byte size plus
  pack/unpack functions that may fail (`struct.error` ↦ `none`).
-/

/-- Python exceptions raised by `memory_patcher.py`. -/
inductive PyErr where
  | invalidAddress  -- InvalidAddressException
  | indexError      -- IndexError (OutOfRange / CapacityExceeded kinds)
  | writeException  -- WriteException (NotWritable kind)
  | structError     -- struct.error from the codec
deriving DecidableEq, Repr

/-- Outcome of a Python method call on an object of state type `σ`:
either a returned value or a raised exception, in both cases together
with the state of the object after the call. -/
inductive PyResult (ε α σ : Type) where
  | ok (a : α) (s : σ)
  | err (e : ε) (s : σ)
deriving DecidableEq, Repr

namespace PyResult

def map (f : α → β) : PyResult ε α σ → PyResult ε β σ
  | .ok a s => .ok (f a) s
  | .err e s => .err e s

def mapState (f : σ → σ') : PyResult ε α σ → PyResult ε α σ'
  | .ok a s => .ok a (f s)
  | .err e s => .err e (f s)

/-- The state carried by a result, successful or not. -/
def state : PyResult ε α σ → σ
  | .ok _ s => s
  | .err _ s => s

end PyResult

/-- Resolution of a single Python slice index `i` against a sequence of
length `n`: negative indices count from the end; clamping to `[0, n]` is
left to `List.take`/`List.drop` (and to `Int.toNat` for indices below
`-n`). -/
def pySliceIdx (n : Nat) (i : Int) : Nat :=
  if i < 0 then (i + n).toNat else i.toNat

/-- Python `l[a:b]`. -/
def pySlice (l : List α) (a b : Int) : List α :=
  (l.take (pySliceIdx l.length b)).drop (pySliceIdx l.length a)

/-- Python `l[:b]`. -/
def pySliceTo (l : List α) (b : Int) : List α :=
  l.take (pySliceIdx l.length b)

/-- Python `l[a:]`. -/
def pySliceFrom (l : List α) (a : Int) : List α :=
  l.drop (pySliceIdx l.length a)

/-- `struct.Struct`, the opaque fixed-layout codec of spec §6: a packed
byte size and pack/unpack functions; `none` models a raised
`struct.error`. -/
structure PyStruct where
  size : Nat
  pack : List Int → Option (List Nat)
  unpack : List Nat → Option (List Int)

/-- A `Segment`: base address, declared size, writability flag, optional
name, and the byte buffer `data` (initially empty).  The constructor
rejects negative `base`/`size`, so they are `Nat` here; the stored field
`end = base + size` is never reassigned and appears below as
`Segment.end_`. -/
structure Segment where
  base : Nat
  size : Nat
  writeable : Bool := true
  name : Option String := none
  data : List Nat := []
deriving DecidableEq, Repr

namespace Segment

/-- `self.end`, set to `base + size` in `__init__` and never reassigned. -/
def end_ (s : Segment) : Nat := s.base + s.size

/-- `addr_to_segment_offset`: fails unless `base ≤ addr ≤ base + size`
(both ends inclusive), else returns `addr - base`.  Pure: it never
touches `self.data`. -/
def addr_to_segment_offset (s : Segment) (addr : Int) : Except PyErr Int :=
  if (s.base : Int) > addr ∨ addr > (s.base : Int) + (s.size : Int) then
    .error .invalidAddress
  else
    .ok (addr - (s.base : Int))

/-- `__contains__`: `base ≤ addr ≤ end`. -/
def contains (s : Segment) (addr : Int) : Bool :=
  decide ((s.base : Int) ≤ addr) && decide (addr ≤ (s.end_ : Int))

/-- `_check_offset`: raises `IndexError` unless `0 ≤ offset < len(data)`. -/
def _check_offset (s : Segment) (offset : Int) : Except PyErr Unit :=
  if ¬ (0 ≤ offset ∧ offset < (s.data.length : Int)) then .error .indexError
  else .ok ()

/-- `_check_offset_len`: `_check_offset` then
`offset + length ≤ len(data)`. -/
def _check_offset_len (s : Segment) (offset length : Int) :
    Except PyErr Unit :=
  match s._check_offset offset with
  | .error e => .error e
  | .ok () =>
    if ¬ (offset + length ≤ (s.data.length : Int)) then .error .indexError
    else .ok ()

/-- `_update_data`: raises `WriteException` if not writeable, else
installs the new buffer. -/
def _update_data (s : Segment) (new_data : List Nat) :
    PyResult PyErr Unit Segment :=
  if ¬ s.writeable then .err .writeException s
  else .ok () { s with data := new_data }

/-- `load_stream` with the stream's bytes already read out: raises
`IndexError` when they exceed the declared `size`, else replaces the
buffer wholesale (note: no writability check in the source). -/
def load_stream (s : Segment) (data : List Nat) :
    PyResult PyErr Unit Segment :=
  if (data.length : Int) > (s.size : Int) then .err .indexError s
  else .ok () { s with data := data }

/-- `read`: bounds check, then the slice `data[offset : offset+length]`. -/
def read (s : Segment) (offset length : Int) :
    PyResult PyErr (List Nat) Segment :=
  match s._check_offset_len offset length with
  | .error e => .err e s
  | .ok () => .ok (pySlice s.data offset (offset + length)) s

/-- `write`: bounds check, remember the overwritten slice, rebuild the
buffer as `data[:offset] + new + data[offset+len(new):]`. -/
def write (s : Segment) (offset : Int) (data : List Nat) :
    PyResult PyErr (List Nat) Segment :=
  match s._check_offset_len offset (data.length : Int) with
  | .error e => .err e s
  | .ok () =>
    let orig_data := pySlice s.data offset (offset + data.length)
    match s._update_data
        (pySliceTo s.data offset ++ data ++
          pySliceFrom s.data (offset + data.length)) with
    | .err e s' => .err e s'
    | .ok () s' => .ok orig_data s'

/-- `insert`: requires `0 ≤ offset ≤ len(data)`, splices the new bytes
in, returns `offset + len(new)`. -/
def insert (s : Segment) (offset : Int) (data : List Nat) :
    PyResult PyErr Int Segment :=
  if ¬ (0 ≤ offset ∧ offset ≤ (s.data.length : Int)) then .err .indexError s
  else
    match s._update_data
        (pySliceTo s.data offset ++ data ++ pySliceFrom s.data offset) with
    | .err e s' => .err e s'
    | .ok () s' => .ok (offset + (data.length : Int)) s'

/-- `cut`: bounds check, remember the removed slice, rebuild the buffer
as `data[:offset] + data[offset+length:]`. -/
def cut (s : Segment) (offset length : Int) :
    PyResult PyErr (List Nat) Segment :=
  match s._check_offset_len offset length with
  | .error e => .err e s
  | .ok () =>
    let orig_data := pySlice s.data offset (offset + length)
    match s._update_data
        (pySliceTo s.data offset ++ pySliceFrom s.data (offset + length)) with
    | .err e s' => .err e s'
    | .ok () s' => .ok orig_data s'

/-- `read_struct`: `s.unpack(self.read(offset, s.size))`. -/
def read_struct (seg : Segment) (offset : Int) (s : PyStruct) :
    PyResult PyErr (List Int) Segment :=
  match seg.read offset (s.size : Int) with
  | .err e s' => .err e s'
  | .ok bs s' =>
    match s.unpack bs with
    | none => .err .structError s'
    | some vs => .ok vs s'

/-- `write_struct`: the source packs the OFFSET as an extra leading
value — `self.write(offset, s.pack(offset, *values))`. -/
def write_struct (seg : Segment) (offset : Int) (s : PyStruct)
    (values : List Int) : PyResult PyErr (List Nat) Segment :=
  match s.pack (offset :: values) with
  | none => .err .structError seg
  | some bs => seg.write offset bs

/-- `insert_struct`: `self.insert(offset, s.pack(*values))`. -/
def insert_struct (seg : Segment) (offset : Int) (s : PyStruct)
    (values : List Int) : PyResult PyErr Int Segment :=
  match s.pack values with
  | none => .err .structError seg
  | some bs => seg.insert offset bs

end Segment

/-- `MemoryPatcher` (the spec's AddressSpace): an insertion-ordered list
of segments. -/
structure MemoryPatcher where
  segments : List Segment
deriving DecidableEq, Repr

/-- The loop body of `MemoryPatcher.get_segment`: first segment of the
list containing `addr`, else `none`. -/
def get_segment_loop (addr : Int) : List Segment → Option Segment
  | [] => none
  | s :: rest =>
    if s.contains addr then some s else get_segment_loop addr rest

/-- Replacing the first segment containing `addr` in the list: the state
effect that Python achieves by aliasing when a `MemoryPatcher` operation
mutates the segment object returned by `get_segment`. -/
def setFirstContaining (addr : Int) (s' : Segment) :
    List Segment → List Segment
  | [] => []
  | s :: rest =>
    if s.contains addr then s' :: rest
    else s :: setFirstContaining addr s' rest

namespace MemoryPatcher

/-- `get_segment`: linear scan in insertion order. -/
def get_segment (m : MemoryPatcher) (addr : Int) : Option Segment :=
  get_segment_loop addr m.segments

/-- `__getitem__`: `get_segment`, raising `InvalidAddressException` when
no segment matches. -/
def getitem (m : MemoryPatcher) (addr : Int) : Except PyErr Segment :=
  match m.get_segment addr with
  | none => .error .invalidAddress
  | some seg => .ok seg

/-- The shared shape of every `MemoryPatcher` data operation:
`seg = self[addr]; return seg.f(seg.addr_to_segment_offset(addr), ...)`,
with the mutation of the aliased segment object made explicit through
`setFirstContaining`. -/
def delegate (m : MemoryPatcher) (addr : Int)
    (f : Segment → Int → PyResult PyErr α Segment) :
    PyResult PyErr α MemoryPatcher :=
  match m.getitem addr with
  | .error e => .err e m
  | .ok seg =>
    match seg.addr_to_segment_offset addr with
    | .error e => .err e m
    | .ok off =>
      (f seg off).mapState
        (fun s' => ⟨setFirstContaining addr s' m.segments⟩)

/-- `MemoryPatcher.read`. -/
def read (m : MemoryPatcher) (addr length : Int) :
    PyResult PyErr (List Nat) MemoryPatcher :=
  m.delegate addr (fun seg off => seg.read off length)

/-- `MemoryPatcher.write`. -/
def write (m : MemoryPatcher) (addr : Int) (data : List Nat) :
    PyResult PyErr (List Nat) MemoryPatcher :=
  m.delegate addr (fun seg off => seg.write off data)

/-- `MemoryPatcher.insert`. -/
def insert (m : MemoryPatcher) (addr : Int) (data : List Nat) :
    PyResult PyErr Int MemoryPatcher :=
  m.delegate addr (fun seg off => seg.insert off data)

/-- `MemoryPatcher.cut`. -/
def cut (m : MemoryPatcher) (addr length : Int) :
    PyResult PyErr (List Nat) MemoryPatcher :=
  m.delegate addr (fun seg off => seg.cut off length)

/-- `MemoryPatcher.read_struct`. -/
def read_struct (m : MemoryPatcher) (addr : Int) (s : PyStruct) :
    PyResult PyErr (List Int) MemoryPatcher :=
  m.delegate addr (fun seg off => seg.read_struct off s)

/-- `MemoryPatcher.write_struct`. -/
def write_struct (m : MemoryPatcher) (addr : Int) (s : PyStruct)
    (values : List Int) : PyResult PyErr (List Nat) MemoryPatcher :=
  m.delegate addr (fun seg off => seg.write_struct off s values)

/-- `MemoryPatcher.insert_struct`. -/
def insert_struct (m : MemoryPatcher) (addr : Int) (s : PyStruct)
    (values : List Int) : PyResult PyErr Int MemoryPatcher :=
  m.delegate addr (fun seg off => seg.insert_struct off s values)

end MemoryPatcher

/-- The data operations shared by `Segment` and `MemoryPatcher`
(everything except the bulk load, which exists only on `Segment`). -/
inductive MPOp where
  | read (length : Int)
  | write (d : List Nat)
  | insert (d : List Nat)
  | cut (length : Int)
  | read_struct (c : PyStruct)
  | write_struct (c : PyStruct) (values : List Int)
  | insert_struct (c : PyStruct) (values : List Int)

/-- The value returned by a data operation: raw bytes, a new cursor, or
a tuple of decoded values. -/
inductive OpResult where
  | bytes (bs : List Nat)
  | cursor (i : Int)
  | values (vs : List Int)
deriving DecidableEq, Repr

/-- Dispatch of a data operation to the `Segment` primitive it names. -/
def Segment.runOp (seg : Segment) (off : Int) :
    MPOp → PyResult PyErr OpResult Segment
  | .read len => (seg.read off len).map .bytes
  | .write d => (seg.write off d).map .bytes
  | .insert d => (seg.insert off d).map .cursor
  | .cut len => (seg.cut off len).map .bytes
  | .read_struct c => (seg.read_struct off c).map .values
  | .write_struct c vs => (seg.write_struct off c vs).map .bytes
  | .insert_struct c vs => (seg.insert_struct off c vs).map .cursor

/-- Dispatch of a data operation to the `MemoryPatcher` method it
names. -/
def MemoryPatcher.runOp (m : MemoryPatcher) (addr : Int) :
    MPOp → PyResult PyErr OpResult MemoryPatcher
  | .read len => (m.read addr len).map .bytes
  | .write d => (m.write addr d).map .bytes
  | .insert d => (m.insert addr d).map .cursor
  | .cut len => (m.cut addr len).map .bytes
  | .read_struct c => (m.read_struct addr c).map .values
  | .write_struct c vs => (m.write_struct addr c vs).map .bytes
  | .insert_struct c vs => (m.insert_struct addr c vs).map .cursor

/-- A concrete codec instance: Python `struct.Struct('<B')`, one
unsigned byte.  `pack` fails (`struct.error`) unless given exactly one
value in `0..255`; `unpack` decodes one byte. -/
def u8 : PyStruct where
  size := 1
  pack := fun vs =>
    match vs with
    | [v] => if 0 ≤ v ∧ v < 256 then some [v.toNat] else none
    | _ => none
  unpack := fun bs =>
    match bs with
    | [b] => some [(b : Int)]
    | _ => none

/-- C2 test segment. -/
def segC2 : Segment := { base := 0x100, size := 0x100, data := [] }

/-- Scenario D, lower segment `[0, 0x8]`. -/
def segD0 : Segment := { base := 0x0, size := 0x8 }

/-- Scenario D, upper segment `[0x10, 0x18]`. -/
def segD1 : Segment := { base := 0x10, size := 0x8 }

/-- Scenario D address space. -/
def mD : MemoryPatcher := ⟨[segD0, segD1]⟩

/-- Scenario B segment: base `0x10`, size `0x8`, bytes `0..7`. -/
def segB : Segment :=
  { base := 0x10, size := 0x8, data := [0, 1, 2, 3, 4, 5, 6, 7] }

/- Every raise in the source happens before the single `self.data`
assignment, so a failing call carries the original state. -/

theorem Segment.update_data_err_state (s : Segment) (nd : List Nat)
    (e : PyErr) (s' : Segment) (h : s._update_data nd = .err e s') :
    s' = s := by
  rw [Segment._update_data] at h
  by_cases hw : s.writeable = true
  · rw [if_neg (not_not_intro hw)] at h
    cases h
  · rw [if_pos hw] at h
    cases h
    rfl

theorem Segment.read_err_state (s : Segment) (off len : Int) (e : PyErr)
    (s' : Segment) (h : s.read off len = .err e s') : s' = s := by
  rw [Segment.read] at h
  split at h
  · cases h
    rfl
  · cases h

theorem Segment.write_err_state (s : Segment) (off : Int) (d : List Nat)
    (e : PyErr) (s' : Segment) (h : s.write off d = .err e s') :
    s' = s := by
  rw [Segment.write] at h
  split at h
  · cases h
    rfl
  · split at h
    · next heq =>
        cases h
        exact s.update_data_err_state _ _ _ heq
    · cases h

theorem Segment.insert_err_state (s : Segment) (off : Int) (d : List Nat)
    (e : PyErr) (s' : Segment) (h : s.insert off d = .err e s') :
    s' = s := by
  rw [Segment.insert] at h
  split at h
  · cases h
    rfl
  · split at h
    · next heq =>
        cases h
        exact s.update_data_err_state _ _ _ heq
    · cases h

theorem Segment.cut_err_state (s : Segment) (off len : Int) (e : PyErr)
    (s' : Segment) (h : s.cut off len = .err e s') : s' = s := by
  rw [Segment.cut] at h
  split at h
  · cases h
    rfl
  · split at h
    · next heq =>
        cases h
        exact s.update_data_err_state _ _ _ heq
    · cases h

theorem Segment.load_stream_err_state (s : Segment) (d : List Nat)
    (e : PyErr) (s' : Segment) (h : s.load_stream d = .err e s') :
    s' = s := by
  rw [Segment.load_stream] at h
  split at h
  · cases h
    rfl
  · cases h

theorem Segment.read_ok_state (s : Segment) (off len : Int)
    (a : List Nat) (s' : Segment) (h : s.read off len = .ok a s') :
    s' = s := by
  rw [Segment.read] at h
  split at h
  · cases h
  · cases h
    rfl

theorem Segment.read_struct_err_state (seg : Segment) (off : Int)
    (c : PyStruct) (e : PyErr) (s' : Segment)
    (h : seg.read_struct off c = .err e s') : s' = seg := by
  rw [Segment.read_struct] at h
  split at h
  · next e₁ s₁ heq =>
      cases h
      exact seg.read_err_state _ _ _ _ heq
  · next bs s₁ heq =>
      split at h
      · cases h
        exact seg.read_ok_state _ _ _ _ heq
      · cases h

theorem Segment.write_struct_err_state (seg : Segment) (off : Int)
    (c : PyStruct) (vs : List Int) (e : PyErr) (s' : Segment)
    (h : seg.write_struct off c vs = .err e s') : s' = seg := by
  rw [Segment.write_struct] at h
  split at h
  · cases h
    rfl
  · exact seg.write_err_state _ _ _ _ h

theorem Segment.insert_struct_err_state (seg : Segment) (off : Int)
    (c : PyStruct) (vs : List Int) (e : PyErr) (s' : Segment)
    (h : seg.insert_struct off c vs = .err e s') : s' = seg := by
  rw [Segment.insert_struct] at h
  split at h
  · cases h
    rfl
  · exact seg.insert_err_state _ _ _ _ h

/-- **C8.** Atomicity of failure: any call to `read`, `write`, `insert`,
`cut`, the bulk load, or a record variant that fails leaves the
segment — in particular its buffer — byte-for-byte as it was before the
call (every raise in the source precedes the single buffer
assignment). -/
theorem C8_failed_call_unchanged (seg : Segment) :
    (∀ (off : Int) (op : MPOp) (e : PyErr) (s' : Segment),
      seg.runOp off op = .err e s' → s' = seg) ∧
    (∀ (d : List Nat) (e : PyErr) (s' : Segment),
      seg.load_stream d = .err e s' → s' = seg) := by
  constructor
  · intro off op e s' h
    cases op with
    | read len =>
      rw [Segment.runOp] at h
      cases hr : seg.read off len with
      | ok a s₁ => rw [hr] at h; cases h
      | err e₁ s₁ =>
        rw [hr] at h
        cases h
        exact seg.read_err_state _ _ _ _ hr
    | write d =>
      rw [Segment.runOp] at h
      cases hr : seg.write off d with
      | ok a s₁ => rw [hr] at h; cases h
      | err e₁ s₁ =>
        rw [hr] at h
        cases h
        exact seg.write_err_state _ _ _ _ hr
    | insert d =>
      rw [Segment.runOp] at h
      cases hr : seg.insert off d with
      | ok a s₁ => rw [hr] at h; cases h
      | err e₁ s₁ =>
        rw [hr] at h
        cases h
        exact seg.insert_err_state _ _ _ _ hr
    | cut len =>
      rw [Segment.runOp] at h
      cases hr : seg.cut off len with
      | ok a s₁ => rw [hr] at h; cases h
      | err e₁ s₁ =>
        rw [hr] at h
        cases h
        exact seg.cut_err_state _ _ _ _ hr
    | read_struct c =>
      rw [Segment.runOp] at h
      cases hr : seg.read_struct off c with
      | ok a s₁ => rw [hr] at h; cases h
      | err e₁ s₁ =>
        rw [hr] at h
        cases h
        exact seg.read_struct_err_state _ _ _ _ hr
    | write_struct c vs =>
      rw [Segment.runOp] at h
      cases hr : seg.write_struct off c vs with
      | ok a s₁ => rw [hr] at h; cases h
      | err e₁ s₁ =>
        rw [hr] at h
        cases h
        exact seg.write_struct_err_state _ _ _ _ _ hr
    | insert_struct c vs =>
      rw [Segment.runOp] at h
      cases hr : seg.insert_struct off c vs with
      | ok a s₁ => rw [hr] at h; cases h
      | err e₁ s₁ =>
        rw [hr] at h
        cases h
        exact seg.insert_struct_err_state _ _ _ _ _ hr
  · intro d e s' h
    exact seg.load_stream_err_state _ _ _ h

/-- Witness for C8: an out-of-range `write` on scenario B's segment
fails with `IndexError`, and the theorem applies to show the reported
post-state equals the original segment. -/
theorem C8_witness :
    segB.runOp 6 (.write [1, 2, 3, 4]) = .err .indexError segB ∧
    segB = segB :=
  ⟨by decide, (C8_failed_call_unchanged segB).1 6 (.write [1, 2, 3, 4])
    .indexError segB (by decide)⟩

/-- Empty writable segment used to refute C6 as originally stated. -/
def segE : Segment := { base := 0, size := 0x10, data := [] }

/-- A non-writable segment holding two bytes. -/
def roSeg : Segment :=
  { base := 0, size := 4, writeable := false, data := [9, 9] }

/-- A writable segment with two zero bytes, for exercising the record
operations. -/
def segS : Segment := { base := 0, size := 0x10, data := [0, 0] }

/- Characterization of the linear scan. -/

theorem get_segment_loop_eq_none (addr : Int) (l : List Segment) :
    get_segment_loop addr l = none ↔ ∀ s ∈ l, s.contains addr = false := by
  induction l with
  | nil => simp [get_segment_loop]
  | cons s rest ih =>
    simp only [get_segment_loop]
    by_cases h : s.contains addr
    · simp [h]
    · simp only [if_neg h, ih, List.mem_cons]
      constructor
      · rintro hall t (rfl | ht)
        · exact Bool.eq_false_iff.mpr h
        · exact hall t ht
      · intro hall t ht
        exact hall t (Or.inr ht)

theorem get_segment_loop_first (addr : Int) (l : List Segment)
    (i : Nat) (hi : i < l.length)
    (hc : (l.get ⟨i, hi⟩).contains addr = true)
    (hfirst : ∀ j (hj : j < l.length), j < i →
      (l.get ⟨j, hj⟩).contains addr = false) :
    get_segment_loop addr l = some (l.get ⟨i, hi⟩) := by
  induction l generalizing i with
  | nil => exact absurd hi (Nat.not_lt_zero i)
  | cons s rest ih =>
    cases i with
    | zero =>
      simp only [List.get] at hc
      simp [get_segment_loop, hc]
    | succ k =>
      have h0 : s.contains addr = false := by
        have := hfirst 0 (Nat.succ_pos _) (Nat.succ_pos k)
        simpa using this
      simp only [get_segment_loop, h0, Bool.false_eq_true, if_false]
      have hk : k < rest.length := Nat.lt_of_succ_lt_succ hi
      exact ih k hk hc (fun j hj hlt =>
        hfirst (j + 1) (Nat.succ_lt_succ hj) (Nat.succ_lt_succ hlt))

/- Reduction of Python slices to `take`/`drop` at non-negative bounds. -/

theorem pySliceIdx_of_nonneg (n : Nat) (i : Int) (h : 0 ≤ i) :
    pySliceIdx n i = i.toNat := by
  simp [pySliceIdx, not_lt.mpr h]

theorem pySliceIdx_natCast (n k : Nat) : pySliceIdx n (k : Int) = k := by
  rw [pySliceIdx_of_nonneg n _ (Int.natCast_nonneg k), Int.toNat_natCast]

theorem pySlice_natCast (l : List α) (a b : Nat) :
    pySlice l (a : Int) (b : Int) = (l.drop a).take (b - a) := by
  rw [pySlice, pySliceIdx_natCast, pySliceIdx_natCast]
  exact List.drop_take b a l

theorem pySliceTo_natCast (l : List α) (b : Nat) :
    pySliceTo l (b : Int) = l.take b := by
  rw [pySliceTo, pySliceIdx_natCast]

theorem pySliceFrom_natCast (l : List α) (a : Nat) :
    pySliceFrom l (a : Int) = l.drop a := by
  rw [pySliceFrom, pySliceIdx_natCast]

/- Characterizations of the checks and the Segment primitives at
in-range natural-number offsets. -/

theorem Segment.check_offset_len_ok (s : Segment) (offset length : Int)
    (h0 : 0 ≤ offset) (h1 : offset < (s.data.length : Int))
    (h2 : offset + length ≤ (s.data.length : Int)) :
    s._check_offset_len offset length = .ok () := by
  simp only [Segment._check_offset_len, Segment._check_offset]
  rw [if_neg (by push_neg; exact ⟨h0, h1⟩), if_neg (by omega)]

theorem Segment.check_offset_len_err (s : Segment) (offset length : Int)
    (h : ¬ (0 ≤ offset ∧ offset < (s.data.length : Int) ∧
      offset + length ≤ (s.data.length : Int))) :
    s._check_offset_len offset length = .error .indexError := by
  simp only [Segment._check_offset_len, Segment._check_offset]
  by_cases hoff : 0 ≤ offset ∧ offset < (s.data.length : Int)
  · rw [if_neg (by push_neg; exact hoff), if_pos (by omega)]
  · rw [if_pos hoff]

theorem Segment.read_eq_ok (s : Segment) (n len : Nat)
    (h1 : n < s.data.length) (h2 : n + len ≤ s.data.length) :
    s.read (n : Int) (len : Int) = .ok ((s.data.drop n).take len) s := by
  rw [Segment.read, s.check_offset_len_ok _ _ (Int.natCast_nonneg n)
    (by exact_mod_cast h1) (by exact_mod_cast h2)]
  have hcast : (n : Int) + (len : Int) = ((n + len : Nat) : Int) := by
    push_cast; ring
  rw [hcast, pySlice_natCast, Nat.add_sub_cancel_left]

theorem Segment.write_eq_ok (s : Segment) (n : Nat) (d : List Nat)
    (hw : s.writeable = true) (h1 : n < s.data.length)
    (h2 : n + d.length ≤ s.data.length) :
    s.write (n : Int) d =
      .ok ((s.data.drop n).take d.length)
        { s with data :=
            s.data.take n ++ d ++ s.data.drop (n + d.length) } := by
  rw [Segment.write, s.check_offset_len_ok _ _ (Int.natCast_nonneg n)
    (by exact_mod_cast h1) (by exact_mod_cast h2)]
  have hcast : (n : Int) + (d.length : Int) =
      ((n + d.length : Nat) : Int) := by push_cast; ring
  simp only [hcast, pySlice_natCast, pySliceTo_natCast, pySliceFrom_natCast,
    Nat.add_sub_cancel_left]
  simp [Segment._update_data, hw]

theorem Segment.insert_eq_ok (s : Segment) (n : Nat) (d : List Nat)
    (hw : s.writeable = true) (h1 : n ≤ s.data.length) :
    s.insert (n : Int) d =
      .ok ((n : Int) + (d.length : Int))
        { s with data := s.data.take n ++ d ++ s.data.drop n } := by
  rw [Segment.insert,
    if_neg (by
      push_neg
      exact ⟨Int.natCast_nonneg n, by exact_mod_cast h1⟩)]
  simp only [pySliceTo_natCast, pySliceFrom_natCast]
  simp [Segment._update_data, hw]

theorem Segment.cut_eq_ok (s : Segment) (n len : Nat)
    (hw : s.writeable = true) (h1 : n < s.data.length)
    (h2 : n + len ≤ s.data.length) :
    s.cut (n : Int) (len : Int) =
      .ok ((s.data.drop n).take len)
        { s with data := s.data.take n ++ s.data.drop (n + len) } := by
  rw [Segment.cut, s.check_offset_len_ok _ _ (Int.natCast_nonneg n)
    (by exact_mod_cast h1) (by exact_mod_cast h2)]
  have hcast : (n : Int) + (len : Int) = ((n + len : Nat) : Int) := by
    push_cast; ring
  simp only [hcast, pySlice_natCast, pySliceTo_natCast, pySliceFrom_natCast,
    Nat.add_sub_cancel_left]
  simp [Segment._update_data, hw]

/- Splicing algebra: recovering the pieces of `A ++ d ++ B`. -/

theorem take_append_middle (A d B : List α) (n : Nat) (hA : A.length = n) :
    (A ++ d ++ B).take n = A := by
  subst hA
  rw [List.append_assoc, List.take_left]

theorem drop_append_middle (A d B : List α) (n : Nat) (hA : A.length = n) :
    (A ++ d ++ B).drop (n + d.length) = B := by
  subst hA
  rw [List.append_assoc, List.drop_append, List.drop_left]

theorem drop_take_append_middle (A d B : List α) (n : Nat)
    (hA : A.length = n) :
    ((A ++ d ++ B).drop n).take d.length = d := by
  subst hA
  rw [List.append_assoc, List.drop_left, List.take_left]

/-- **C2.** For every segment and every address `addr` with
`base ≤ addr ≤ base + size` (inclusive on both ends),
`addr_to_segment_offset addr` returns `addr - base`; for every `addr`
outside that inclusive range it fails with `InvalidAddress`. -/
theorem C2_addr_to_segment_offset (s : Segment) (addr : Int) :
    ((s.base : Int) ≤ addr ∧ addr ≤ (s.base : Int) + (s.size : Int) →
      s.addr_to_segment_offset addr = .ok (addr - (s.base : Int))) ∧
    (¬ ((s.base : Int) ≤ addr ∧ addr ≤ (s.base : Int) + (s.size : Int)) →
      s.addr_to_segment_offset addr = .error .invalidAddress) := by
  constructor
  · rintro ⟨h1, h2⟩
    simp [Segment.addr_to_segment_offset, not_lt.mpr h1, not_lt.mpr h2]
  · intro h
    rw [Decidable.not_and_iff_or_not, not_le, not_le] at h
    simp only [Segment.addr_to_segment_offset]
    rcases h with h | h
    · rw [if_pos (Or.inl h)]
    · rw [if_pos (Or.inr h)]

/-- Witness for C2 at `Segment(0x100, 0x100)`: address `0x110` maps to
offset `0x10`, address `0xFF` is rejected. -/
theorem C2_witness :
    segC2.addr_to_segment_offset 0x110 = .ok 0x10 ∧
    segC2.addr_to_segment_offset 0xFF = .error .invalidAddress := by
  constructor
  · have h := (C2_addr_to_segment_offset segC2 0x110).1 (by decide)
    simpa [segC2] using h
  · exact (C2_addr_to_segment_offset segC2 0xFF).2 (by decide)

/-- **C3.** `get_segment` returns `none` exactly when no segment's
inclusive range `base ≤ addr ≤ base + size` contains `addr`, and
otherwise returns the first segment in insertion order whose range
contains `addr` (in particular when ranges overlap or touch: any earlier
non-containing segments are skipped and the scan stops at the first
containing one). -/
theorem C3_get_segment (m : MemoryPatcher) (addr : Int) :
    (m.get_segment addr = none ↔
      ∀ s ∈ m.segments, s.contains addr = false) ∧
    (∀ i (hi : i < m.segments.length),
      (m.segments.get ⟨i, hi⟩).contains addr = true →
      (∀ j (hj : j < m.segments.length), j < i →
        (m.segments.get ⟨j, hj⟩).contains addr = false) →
      m.get_segment addr = some (m.segments.get ⟨i, hi⟩)) := by
  constructor
  · exact get_segment_loop_eq_none addr m.segments
  · intro i hi hc hfirst
    exact get_segment_loop_first addr m.segments i hi hc hfirst

/-- Witness for C3 on scenario D: `0x9` is in no segment, `0x8` resolves
to the first segment (inclusive upper bound), `0x10` to the second. -/
theorem C3_witness :
    mD.get_segment 0x9 = none ∧
    mD.get_segment 0x8 = some segD0 ∧
    mD.get_segment 0x10 = some segD1 := by
  refine ⟨?_, ?_, ?_⟩
  · exact (C3_get_segment mD 0x9).1.mpr (by decide)
  · exact (C3_get_segment mD 0x8).2 0 (by decide) (by decide)
      (fun j hj hlt => absurd hlt (Nat.not_lt_zero j))
  · exact (C3_get_segment mD 0x10).2 1 (by decide) (by decide)
      (fun j hj hlt => by
        have hj0 : j = 0 := by omega
        subst hj0
        show segD0.contains 0x10 = false
        decide)

/-- **C5.** For every writable segment, offset and data with
`0 ≤ offset < len(buffer)` and `offset + len(data) ≤ len(buffer)`,
`write` returns exactly the bytes previously occupying
`[offset, offset+len(data))`, leaves the buffer length unchanged, and
an immediately following `read(offset, len(data))` returns `data`. -/
theorem C5_write_then_read (seg : Segment) (off : Int) (d : List Nat)
    (hw : seg.writeable = true) (h0 : 0 ≤ off)
    (h1 : off < (seg.data.length : Int))
    (h2 : off + (d.length : Int) ≤ (seg.data.length : Int)) :
    ∃ seg' : Segment,
      seg.write off d =
        .ok ((seg.data.drop off.toNat).take d.length) seg' ∧
      seg'.data.length = seg.data.length ∧
      seg'.read off (d.length : Int) = .ok d seg' := by
  obtain ⟨n, rfl⟩ : ∃ n : Nat, off = (n : Int) :=
    ⟨off.toNat, (Int.toNat_of_nonneg h0).symm⟩
  have h1' : n < seg.data.length := by exact_mod_cast h1
  have h2' : n + d.length ≤ seg.data.length := by exact_mod_cast h2
  have hA : (seg.data.take n).length = n := by
    rw [List.length_take]
    omega
  refine ⟨{ seg with data := seg.data.take n ++ d ++ seg.data.drop (n + d.length) }, ?_, ?_, ?_⟩
  · rw [Int.toNat_natCast]
    exact seg.write_eq_ok n d hw h1' h2'
  · simp only [List.length_append, List.length_take, List.length_drop]
    omega
  · rw [Segment.read_eq_ok { seg with data := seg.data.take n ++ d ++ seg.data.drop (n + d.length) } n d.length (by simp [List.length_take]; omega) (by simp [List.length_take]; omega)]
    have hX : (({ seg with data := seg.data.take n ++ d ++ seg.data.drop (n + d.length) } : Segment).data.drop n).take d.length = d :=
      drop_take_append_middle _ _ _ n hA
    rw [hX]

/-- Witness for C5 on scenario B: writing `[7,6,5,4]` at offset 0
returns the overwritten `[0,1,2,3]`, keeps length 8, and reading back
yields `[7,6,5,4]`. -/
theorem C5_witness :
    ∃ seg' : Segment,
      segB.write 0 [7, 6, 5, 4] = .ok [0, 1, 2, 3] seg' ∧
      seg'.data.length = 8 ∧
      seg'.read 0 4 = .ok [7, 6, 5, 4] seg' := by
  have h := C5_write_then_read segB 0 [7, 6, 5, 4] rfl (by decide)
    (by decide) (by decide)
  simpa [segB] using h

/-- **C6 (amended).** For every writable segment, data, and offset in
`[0, len(buffer)]` — provided the data is nonempty or the offset is
strictly below `len(buffer)` — `insert(offset, data)` grows the buffer
by `len(data)` and returns `offset + len(data)`, and a subsequent
`cut(offset, len(data))` returns `data` and restores the segment (buffer
content and length) exactly.  The proviso is forced by `cut`'s bounds
rule (`offset < len(buffer)` must hold), which rejects
`cut(len(buffer), 0)` after an empty insertion at the end. -/
theorem C6_insert_then_cut (seg : Segment) (off : Int) (d : List Nat)
    (hw : seg.writeable = true) (h0 : 0 ≤ off)
    (h1 : off ≤ (seg.data.length : Int))
    (hside : d ≠ [] ∨ off < (seg.data.length : Int)) :
    ∃ seg₁ : Segment,
      seg.insert off d = .ok (off + (d.length : Int)) seg₁ ∧
      seg₁.data.length = seg.data.length + d.length ∧
      seg₁.cut off (d.length : Int) = .ok d seg := by
  obtain ⟨n, rfl⟩ : ∃ n : Nat, off = (n : Int) :=
    ⟨off.toNat, (Int.toNat_of_nonneg h0).symm⟩
  have h1' : n ≤ seg.data.length := by exact_mod_cast h1
  have hA : (seg.data.take n).length = n := by
    rw [List.length_take]
    omega
  have hd : d ≠ [] ∨ n < seg.data.length := by
    rcases hside with h | h
    · exact Or.inl h
    · exact Or.inr (by exact_mod_cast h)
  refine ⟨{ seg with data := seg.data.take n ++ d ++ seg.data.drop n }, seg.insert_eq_ok n d hw h1', ?_, ?_⟩
  · simp only [List.length_append, List.length_take, List.length_drop]
    omega
  · have hdpos : n < seg.data.length + d.length := by
      rcases hd with h | h
      · have : 0 < d.length := List.length_pos.mpr h
        omega
      · omega
    rw [Segment.cut_eq_ok { seg with data := seg.data.take n ++ d ++ seg.data.drop n } n d.length hw (by simp [List.length_take]; omega) (by simp [List.length_take]; omega)]
    have hX : (({ seg with data := seg.data.take n ++ d ++ seg.data.drop n } : Segment).data.drop n).take d.length = d :=
      drop_take_append_middle _ _ _ n hA
    have hT : ({ seg with data := seg.data.take n ++ d ++ seg.data.drop n } : Segment).data.take n = seg.data.take n :=
      take_append_middle _ _ _ n hA
    have hD : ({ seg with data := seg.data.take n ++ d ++ seg.data.drop n } : Segment).data.drop (n + d.length) = seg.data.drop n :=
      drop_append_middle _ _ _ n hA
    rw [hX, hT, hD, List.take_append_drop]

/-- Counterexample to **C6** as stated: on an empty writable buffer,
`insert(0, [])` is legal (offset `0 ∈ [0, len(buffer)]`), grows the
buffer by `0` and returns `0`, but the subsequent `cut(0, 0)` does NOT
return the data — it fails with `IndexError` (the `OutOfRange` kind),
because `cut` requires `offset < len(buffer)`. -/
theorem C6_counterexample :
    segE.insert 0 [] = .ok 0 segE ∧
    segE.cut 0 0 = .err .indexError segE := by
  decide

/- Mutation attempts on a non-writable segment. -/

theorem Segment.update_data_not_writable (s : Segment)
    (hw : s.writeable = false) (nd : List Nat) :
    s._update_data nd = .err .writeException s := by
  rw [Segment._update_data, if_pos]
  simp [hw]

/-- **C7 (amended).** On a segment with `writable = false`: `write`,
`insert` and `cut` always fail and leave the segment unchanged, and they
fail with `NotWritable` (`WriteException`) precisely when their
offset/length arguments pass the bounds checks (an out-of-bounds call
reports `OutOfRange` first, per C10); the bulk load, however, is NOT
gated by writability — it succeeds and replaces the buffer whenever the
incoming data fits the declared `size`. -/
theorem C7_not_writable (seg : Segment) (hw : seg.writeable = false) :
    (∀ (off : Int) (d : List Nat), ∃ e, seg.write off d = .err e seg) ∧
    (∀ (off : Int) (d : List Nat), ∃ e, seg.insert off d = .err e seg) ∧
    (∀ off len : Int, ∃ e, seg.cut off len = .err e seg) ∧
    (∀ (off : Int) (d : List Nat),
      0 ≤ off → off < (seg.data.length : Int) →
      off + (d.length : Int) ≤ (seg.data.length : Int) →
      seg.write off d = .err .writeException seg) ∧
    (∀ (off : Int) (d : List Nat),
      0 ≤ off → off ≤ (seg.data.length : Int) →
      seg.insert off d = .err .writeException seg) ∧
    (∀ off len : Int,
      0 ≤ off → off < (seg.data.length : Int) →
      off + len ≤ (seg.data.length : Int) →
      seg.cut off len = .err .writeException seg) ∧
    (∀ d : List Nat, d.length ≤ seg.size →
      seg.load_stream d = .ok () { seg with data := d }) := by
  refine ⟨?_, ?_, ?_, ?_, ?_, ?_, ?_⟩
  · intro off d
    by_cases hchk : 0 ≤ off ∧ off < (seg.data.length : Int) ∧
        off + (d.length : Int) ≤ (seg.data.length : Int)
    · exact ⟨.writeException, by
        rw [Segment.write,
          seg.check_offset_len_ok _ _ hchk.1 hchk.2.1 hchk.2.2,
          seg.update_data_not_writable hw]⟩
    · exact ⟨.indexError, by
        rw [Segment.write, seg.check_offset_len_err _ _ hchk]⟩
  · intro off d
    by_cases hin : 0 ≤ off ∧ off ≤ (seg.data.length : Int)
    · exact ⟨.writeException, by
        rw [Segment.insert, if_neg (not_not_intro hin),
          seg.update_data_not_writable hw]⟩
    · exact ⟨.indexError, by rw [Segment.insert, if_pos hin]⟩
  · intro off len
    by_cases hchk : 0 ≤ off ∧ off < (seg.data.length : Int) ∧
        off + len ≤ (seg.data.length : Int)
    · exact ⟨.writeException, by
        rw [Segment.cut,
          seg.check_offset_len_ok _ _ hchk.1 hchk.2.1 hchk.2.2,
          seg.update_data_not_writable hw]⟩
    · exact ⟨.indexError, by
        rw [Segment.cut, seg.check_offset_len_err _ _ hchk]⟩
  · intro off d h0 h1 h2
    rw [Segment.write, seg.check_offset_len_ok _ _ h0 h1 h2,
      seg.update_data_not_writable hw]
  · intro off d h0 h1
    rw [Segment.insert, if_neg (not_not_intro ⟨h0, h1⟩),
      seg.update_data_not_writable hw]
  · intro off len h0 h1 h2
    rw [Segment.cut, seg.check_offset_len_ok _ _ h0 h1 h2,
      seg.update_data_not_writable hw]
  · intro d hd
    rw [Segment.load_stream, if_neg (not_lt.mpr (by exact_mod_cast hd))]

/-- Counterexample to **C7** as stated: the bulk load is a mutating
operation, yet on the non-writable segment `roSeg` it does not fail with
`NotWritable` — it succeeds and replaces the buffer. -/
theorem C7_counterexample :
    roSeg.writeable = false ∧
    roSeg.load_stream [1] = .ok () { roSeg with data := [1] } ∧
    ({ roSeg with data := [1] } : Segment).data ≠ roSeg.data := by
  decide

/-- Witness for C7: on `roSeg` an in-bounds `write` fails with
`WriteException` leaving the segment unchanged, while a fitting bulk
load succeeds and installs the new bytes. -/
theorem C7_witness :
    roSeg.write 0 [5] = .err .writeException roSeg ∧
    roSeg.load_stream [1, 2] = .ok () { roSeg with data := [1, 2] } :=
  ⟨(C7_not_writable roSeg rfl).2.2.2.1 0 [5] (by decide) (by decide)
      (by decide),
    (C7_not_writable roSeg rfl).2.2.2.2.2.2 [1, 2] (by decide)⟩

/-- **C9.** The bulk load fails with `CapacityExceeded` (surfacing as
Python `IndexError`) and leaves the buffer as it was whenever the data
is longer than the declared `size`; for data of length at most `size`
it replaces the buffer wholesale. -/
theorem C9_load_capacity (seg : Segment) (d : List Nat) :
    (seg.size < d.length → seg.load_stream d = .err .indexError seg) ∧
    (d.length ≤ seg.size → seg.load_stream d = .ok () { seg with data := d }) := by
  constructor
  · intro h
    rw [Segment.load_stream, if_pos (by exact_mod_cast h)]
  · intro h
    rw [Segment.load_stream, if_neg (not_lt.mpr (by exact_mod_cast h))]

/-- Witness for C9 on the empty segment of declared size `0x10`:
17 bytes are rejected with the buffer untouched, 2 bytes are
installed. -/
theorem C9_witness :
    segE.load_stream (List.replicate 17 0) = .err .indexError segE ∧
    segE.load_stream [1, 2] = .ok () { segE with data := [1, 2] } :=
  ⟨(C9_load_capacity segE _).1 (by decide),
    (C9_load_capacity segE _).2 (by decide)⟩

/-- **C10.** Bounds are validated before writability: for any segment
(writable or not), a `write` or `cut` whose offset/length pair violates
the buffer-bounds rule fails with `OutOfRange` (Python `IndexError`),
never with `NotWritable`. -/
theorem C10_bounds_before_writability (seg : Segment) (off : Int) :
    (∀ d : List Nat,
      ¬ (0 ≤ off ∧ off < (seg.data.length : Int) ∧
        off + (d.length : Int) ≤ (seg.data.length : Int)) →
      seg.write off d = .err .indexError seg) ∧
    (∀ len : Int,
      ¬ (0 ≤ off ∧ off < (seg.data.length : Int) ∧
        off + len ≤ (seg.data.length : Int)) →
      seg.cut off len = .err .indexError seg) := by
  constructor
  · intro d h
    rw [Segment.write, seg.check_offset_len_err _ _ h]
  · intro len h
    rw [Segment.cut, seg.check_offset_len_err _ _ h]

/-- Witness for C10: on the non-writable `roSeg` (buffer length 2), an
out-of-range `write` at offset 5 reports `IndexError` (`OutOfRange`),
not `WriteException` (`NotWritable`). -/
theorem C10_witness :
    roSeg.writeable = false ∧
    roSeg.write 5 [1] = .err .indexError roSeg :=
  ⟨rfl, (C10_bounds_before_writability roSeg 5).1 [1] (by decide)⟩

/- Address-space delegation: the `MemoryPatcher` layer refines the
`Segment` primitives. -/

theorem Segment.translate_of_contains (s : Segment) (addr : Int)
    (hc : s.contains addr = true) :
    s.addr_to_segment_offset addr = .ok (addr - (s.base : Int)) := by
  simp only [Segment.contains, Segment.end_, Bool.and_eq_true,
    decide_eq_true_eq] at hc
  obtain ⟨h1, h2⟩ := hc
  rw [Segment.addr_to_segment_offset, if_neg]
  push_neg
  exact ⟨h1, by exact_mod_cast h2⟩

theorem setFirstContaining_eq_set (addr : Int) (s' : Segment)
    (l : List Segment) (i : Nat) (hi : i < l.length)
    (hc : (l.get ⟨i, hi⟩).contains addr = true)
    (hfirst : ∀ j (hj : j < l.length), j < i →
      (l.get ⟨j, hj⟩).contains addr = false) :
    setFirstContaining addr s' l = l.set i s' := by
  induction l generalizing i with
  | nil => exact absurd hi (Nat.not_lt_zero i)
  | cons s rest ih =>
    cases i with
    | zero =>
      simp only [List.get] at hc
      simp [setFirstContaining, hc]
    | succ k =>
      have h0 : s.contains addr = false := by
        simpa using hfirst 0 (Nat.succ_pos _) (Nat.succ_pos k)
      simp only [setFirstContaining, h0, Bool.false_eq_true, if_false,
        List.set_cons_succ]
      congr 1
      exact ih k (Nat.lt_of_succ_lt_succ hi) hc (fun j hj hlt =>
        hfirst (j + 1) (Nat.succ_lt_succ hj) (Nat.succ_lt_succ hlt))

theorem PyResult.map_mapState_comm (x : PyResult ε α σ) (g : α → β)
    (u : σ → σ') : (x.mapState u).map g = (x.map g).mapState u := by
  cases x <;> rfl

theorem MemoryPatcher.delegate_none (m : MemoryPatcher) (addr : Int)
    (f : Segment → Int → PyResult PyErr α Segment)
    (h : ∀ s ∈ m.segments, s.contains addr = false) :
    m.delegate addr f = .err .invalidAddress m := by
  rw [MemoryPatcher.delegate, MemoryPatcher.getitem,
    MemoryPatcher.get_segment, (get_segment_loop_eq_none addr _).mpr h]

theorem MemoryPatcher.delegate_first (m : MemoryPatcher) (addr : Int)
    (f : Segment → Int → PyResult PyErr α Segment)
    (i : Nat) (hi : i < m.segments.length)
    (hc : (m.segments.get ⟨i, hi⟩).contains addr = true)
    (hfirst : ∀ j (hj : j < m.segments.length), j < i →
      (m.segments.get ⟨j, hj⟩).contains addr = false) :
    m.delegate addr f =
      (f (m.segments.get ⟨i, hi⟩)
          (addr - ((m.segments.get ⟨i, hi⟩).base : Int))).mapState
        (fun s' => ⟨m.segments.set i s'⟩) := by
  have hget : m.getitem addr = .ok (m.segments.get ⟨i, hi⟩) := by
    rw [MemoryPatcher.getitem, MemoryPatcher.get_segment,
      get_segment_loop_first addr m.segments i hi hc hfirst]
  have htr := Segment.translate_of_contains _ _ hc
  simp only [MemoryPatcher.delegate, hget, htr]
  have hset : (fun s' => (⟨setFirstContaining addr s' m.segments⟩ :
      MemoryPatcher)) = fun s' => ⟨m.segments.set i s'⟩ := by
    funext s'
    rw [setFirstContaining_eq_set addr s' m.segments i hi hc hfirst]
  rw [hset]

/-- **C4.** Every `MemoryPatcher` data operation (`read`, `write`,
`insert`, `cut`, `read_struct`, `write_struct`, `insert_struct`) at an
absolute address: when no segment contains the address it fails with
`InvalidAddress` leaving the address space unchanged; otherwise its
outcome (value or error, and the effect on the owning segment) is
exactly that of the corresponding primitive of the first containing
segment at offset `addr - segment.base`, failures propagated
unchanged. -/
theorem C4_delegates_to_segment (m : MemoryPatcher) (addr : Int)
    (op : MPOp) :
    ((∀ s ∈ m.segments, s.contains addr = false) →
      m.runOp addr op = .err .invalidAddress m) ∧
    (∀ i (hi : i < m.segments.length),
      (m.segments.get ⟨i, hi⟩).contains addr = true →
      (∀ j (hj : j < m.segments.length), j < i →
        (m.segments.get ⟨j, hj⟩).contains addr = false) →
      m.runOp addr op =
        ((m.segments.get ⟨i, hi⟩).runOp
            (addr - ((m.segments.get ⟨i, hi⟩).base : Int)) op).mapState
          (fun s' => ⟨m.segments.set i s'⟩)) := by
  cases op with
  | read len =>
    refine ⟨fun h => ?_, fun i hi hc hfirst => ?_⟩
    · rw [MemoryPatcher.runOp, MemoryPatcher.read,
        m.delegate_none addr _ h]
      rfl
    · rw [MemoryPatcher.runOp, MemoryPatcher.read,
        m.delegate_first addr _ i hi hc hfirst, Segment.runOp,
        PyResult.map_mapState_comm]
  | write d =>
    refine ⟨fun h => ?_, fun i hi hc hfirst => ?_⟩
    · rw [MemoryPatcher.runOp, MemoryPatcher.write,
        m.delegate_none addr _ h]
      rfl
    · rw [MemoryPatcher.runOp, MemoryPatcher.write,
        m.delegate_first addr _ i hi hc hfirst, Segment.runOp,
        PyResult.map_mapState_comm]
  | insert d =>
    refine ⟨fun h => ?_, fun i hi hc hfirst => ?_⟩
    · rw [MemoryPatcher.runOp, MemoryPatcher.insert,
        m.delegate_none addr _ h]
      rfl
    · rw [MemoryPatcher.runOp, MemoryPatcher.insert,
        m.delegate_first addr _ i hi hc hfirst, Segment.runOp,
        PyResult.map_mapState_comm]
  | cut len =>
    refine ⟨fun h => ?_, fun i hi hc hfirst => ?_⟩
    · rw [MemoryPatcher.runOp, MemoryPatcher.cut,
        m.delegate_none addr _ h]
      rfl
    · rw [MemoryPatcher.runOp, MemoryPatcher.cut,
        m.delegate_first addr _ i hi hc hfirst, Segment.runOp,
        PyResult.map_mapState_comm]
  | read_struct c =>
    refine ⟨fun h => ?_, fun i hi hc hfirst => ?_⟩
    · rw [MemoryPatcher.runOp, MemoryPatcher.read_struct,
        m.delegate_none addr _ h]
      rfl
    · rw [MemoryPatcher.runOp, MemoryPatcher.read_struct,
        m.delegate_first addr _ i hi hc hfirst, Segment.runOp,
        PyResult.map_mapState_comm]
  | write_struct c vs =>
    refine ⟨fun h => ?_, fun i hi hc hfirst => ?_⟩
    · rw [MemoryPatcher.runOp, MemoryPatcher.write_struct,
        m.delegate_none addr _ h]
      rfl
    · rw [MemoryPatcher.runOp, MemoryPatcher.write_struct,
        m.delegate_first addr _ i hi hc hfirst, Segment.runOp,
        PyResult.map_mapState_comm]
  | insert_struct c vs =>
    refine ⟨fun h => ?_, fun i hi hc hfirst => ?_⟩
    · rw [MemoryPatcher.runOp, MemoryPatcher.insert_struct,
        m.delegate_none addr _ h]
      rfl
    · rw [MemoryPatcher.runOp, MemoryPatcher.insert_struct,
        m.delegate_first addr _ i hi hc hfirst, Segment.runOp,
        PyResult.map_mapState_comm]

/-- Witness for C4 on scenario D: inserting one byte at address `0x12`
resolves to the second segment (index 1) and equals that segment's
`insert` at offset `0x12 - 0x10 = 2` (which here fails with
`IndexError`, the failure propagating unchanged). -/
theorem C4_witness :
    mD.runOp 0x12 (.insert [1]) =
      ((mD.segments.get ⟨1, by decide⟩).runOp
          (0x12 - ((mD.segments.get ⟨1, by decide⟩).base : Int))
          (.insert [1])).mapState
        (fun s' => ⟨mD.segments.set 1 s'⟩) :=
  (C4_delegates_to_segment mD 0x12 (.insert [1])).2 1 (by decide)
    (by decide)
    (fun j hj hlt => by
      have hj0 : j = 0 := by omega
      subst hj0
      show segD0.contains 0x12 = false
      decide)

/-- Theorem for **C1** (a code bug): `Segment.write_struct` does not ask
the codec for the encoding of exactly the given values — the source
packs the OFFSET as an extra leading value (`s.pack(offset, *values)`).
With the one-byte layout `u8` and values `(5,)` at offset 0 on a
writable two-byte segment: the codec's encoding of the given values is
`[5]`, and `write` would install it returning the overwritten `[0]`;
but `write_struct` calls `pack([0, 5])`, which raises `struct.error`
(arity mismatch), so nothing is installed.  The sibling `insert_struct`
packs only the values and succeeds. -/
theorem C1_write_struct_packs_offset :
    segS.write_struct 0 u8 [5] = .err .structError segS ∧
    u8.pack [5] = some [5] ∧
    segS.write 0 [5] = .ok [0] { segS with data := [5, 0] } ∧
    segS.insert_struct 0 u8 [5] = .ok 1 { segS with data := [5, 0, 0] } := by
  decide

/-- Witness for C6 on scenario B's segment: inserting `[9,9]` at
offset 2 returns cursor 4 and grows the buffer to 10 bytes; cutting two
bytes at offset 2 returns `[9,9]` and restores the segment exactly. -/
theorem C6_witness :
    ∃ seg₁ : Segment,
      segB.insert 2 [9, 9] =
        .ok (2 + (([9, 9] : List Nat).length : Int)) seg₁ ∧
      seg₁.data.length = segB.data.length + ([9, 9] : List Nat).length ∧
      seg₁.cut 2 (([9, 9] : List Nat).length : Int) = .ok [9, 9] segB :=
  C6_insert_then_cut segB 2 [9, 9] rfl (by decide) (by decide)
    (Or.inl (by decide))
